import Mathlib

/-!
# Verification of the Meshtastic-to-Discord bridge pipeline

A shallow embedding of `bridge/bridge.py`: the message normalizer
(`parse_meshtastic_message`), the node-name cache (`update_node_name`,
`get_node_display_name`), the duplicate-suppression logic of `on_message`,
and the two Discord formatters (`send_to_discord`,
`send_telemetry_to_discord`).

Modelling conventions:
* JSON values are modelled by `JVal`; JSON numbers are modelled as integers
  (all fields the source inspects numerically carry integers on the wire;
  fractional values are outside the model).
* Python dicts produced by `json.loads` are association lists with distinct
  keys; `dict.get(k)` is `dictGet`; a key bound to JSON `null` is Python
  `None`, which `denull` collapses where the source tests `is not None`.
* Python truthiness is `jTruthy`; `x or y` is `pyOr`.
* Rendering of floating-point numbers into embed field strings is abstracted:
  a `FieldValue` constructor records the exact integer inputs the source
  would format.  Everything decidable about the claims (which fields are
  emitted, with which inputs) is preserved.
* Cached node names are modelled as strings; a payload carrying a truthy
  non-string name value is outside the model (real traffic carries strings).
  Likewise a `sender` field is modelled only when it is a string.
* `webhook.execute()` failures are caught by the source and only logged, so
  a delivery is modelled as the embed handed to the transport; its outcome
  cannot influence any later state.
* `set.pop()` removes an implementation-defined element; it is modelled by
  an arbitrary choice function `pick` supplied to the pipeline.
* An unhashable message id (a dict or list) makes `msg_id in seen_messages`
  raise in the source, aborting the callback; `dedupAdmit` returns `none`
  in that case and the message state is left as parsed.
-/

set_option maxRecDepth 1000000

/-- JSON values as delivered by `json.loads`. -/
inductive JVal where
  | null
  | bool (b : Bool)
  | num (n : Int)
  | str (s : String)
  | arr (elems : List JVal)
  | obj (fields : List (String × JVal))

/-- `d.get(k)` / `k in d` on a parsed JSON object: `some v` iff the key is
present (possibly bound to JSON null). -/
def dictGet (fs : List (String × JVal)) (k : String) : Option JVal :=
  fs.lookup k

/-- Python truthiness of a JSON value. -/
def jTruthy : JVal → Bool
  | JVal.null => false
  | JVal.bool b => b
  | JVal.num n => n != 0
  | JVal.str s => s != ""
  | JVal.arr xs => !xs.isEmpty
  | JVal.obj fs => !fs.isEmpty

/-- Truthiness of an optional value (`None` is falsy). -/
def jTruthyO : Option JVal → Bool
  | some v => jTruthy v
  | none => false

/-- Python `x or y`. -/
def pyOr (a b : Option JVal) : Option JVal :=
  if jTruthyO a then a else b

/-- Collapse a JSON `null` binding to Python `None`: the source's
`... is not None` tests see no difference between an absent key (via
`.get`) and a key bound to `null`. -/
def denull : Option JVal → Option JVal
  | some JVal.null => none
  | x => x

/-- The numeric content Python arithmetic sees: ints, with `bool` as 0/1. -/
def asPyNum : JVal → Option Int
  | JVal.num n => some n
  | JVal.bool b => some (if b then 1 else 0)
  | _ => none

/-- Python `v != 0` (true for every non-numeric value). -/
def jneZero (v : JVal) : Bool :=
  match asPyNum v with
  | some n => n != 0
  | none => true

/-- Python `==` on hashable scalars (numbers compare across `bool`/`int`). -/
def jScalarEq (a b : JVal) : Bool :=
  match a, b with
  | JVal.null, JVal.null => true
  | JVal.str x, JVal.str y => x == y
  | x, y =>
    match asPyNum x, asPyNum y with
    | some u, some v => u == v
    | _, _ => false

/-- Whether a value can live inside a Python `set` (dicts and lists raise
`TypeError: unhashable type`). -/
def isHashable : JVal → Bool
  | JVal.obj _ => false
  | JVal.arr _ => false
  | _ => true

/-- `v == JVal.str s` without needing decidable equality on `JVal`. -/
def isStrEq (v : JVal) (s : String) : Bool :=
  match v with
  | JVal.str t => t == s
  | _ => false

/-- Keep only string-valued names (see modelling conventions above). -/
def nameOf : Option JVal → Option String
  | some (JVal.str s) => some s
  | _ => none

/-- Truthiness of an optional string argument of `update_node_name`. -/
def truthyS : Option String → Bool
  | some s => s != ""
  | none => false

/-! ## Node identity cache (`node_names`, bridge.py lines 30-53) -/

/-- One entry of `node_names`: the dict `{'short': ..., 'long': ...}`. -/
structure Names where
  short : Option String
  long : Option String

/-- The `node_names` dict. -/
def Cache := String → Option Names

/-- The initial, empty `node_names` dict. -/
def emptyCache : Cache := fun _ => none

/-- bridge.py lines 33-43: merge non-empty provided names into the record,
creating the record if absent. -/
def update_node_name (cache : Cache) (node_id : String)
    (short_name long_name : Option String) : Cache :=
  let rec0 := (cache node_id).getD { short := none, long := none }
  let rec1 := if truthyS short_name then { rec0 with short := short_name } else rec0
  let rec2 := if truthyS long_name then { rec1 with long := long_name } else rec1
  fun j => if j = node_id then some rec2 else cache j

/-- bridge.py lines 45-53: best available display name (long, else short,
else the id itself); the source tests `names.get('long')` for truthiness. -/
def get_node_display_name (cache : Cache) (node_id : String) : String :=
  match cache node_id with
  | some names =>
    if truthyS names.long then names.long.getD ""
    else if truthyS names.short then names.short.getD ""
    else node_id
  | none => node_id

/-! ## Python `f"!{n:08x}"` (bridge.py line 236) -/

/-- Little accumulator loop producing the lowercase base-16 digits of `n`;
the fuel argument only bounds the recursion and any fuel above the digit
count gives the same result. -/
def toHexAux : Nat → Nat → List Char → List Char
  | 0, _, acc => acc
  | fuel + 1, n, acc =>
    let d := Nat.digitChar (n % 16)
    if n / 16 = 0 then d :: acc else toHexAux fuel (n / 16) (d :: acc)

/-- Lowercase hex digits of `n`, most significant first (`"0"` for 0). -/
def hexDigits (n : Nat) : List Char :=
  toHexAux (n + 1) n []

/-- Left-pad with `'0'` to width `w`. -/
def zfill (w : Nat) (ds : List Char) : List Char :=
  List.replicate (w - ds.length) '0' ++ ds

/-- Python `format(n, '08x')`, sign-aware padding included. -/
def pyFormat08x (n : Int) : String :=
  if n < 0 then String.mk ('-' :: zfill 7 (hexDigits n.natAbs))
  else String.mk (zfill 8 (hexDigits n.toNat))

/-- bridge.py line 236: `f"!{data['from']:08x}"`. -/
def pyHexBang (n : Int) : String :=
  "!" ++ pyFormat08x n

/-! ## Topic handling -/

/-- Python `topic.split('/')` for the single-character separator. -/
def splitSlash : List Char → List (List Char)
  | [] => [[]]
  | '/' :: rest => [] :: splitSlash rest
  | c :: rest =>
    match splitSlash rest with
    | h :: t => (c :: h) :: t
    | [] => [[c]]

/-- bridge.py lines 247-249: `channel` is segment index 3 when the topic
has at least four segments. -/
def channelOf (topic : String) : Option String :=
  ((splitSlash topic.data)[3]?).map String.mk

/-- Python `'/json/' in topic` (bridge.py line 288). -/
def containsJsonSeg (topic : String) : Bool :=
  go topic.data
where
  go : List Char → Bool
  | [] => false
  | c :: rest =>
    (match c :: rest with
     | '/' :: 'j' :: 's' :: 'o' :: 'n' :: '/' :: _ => true
     | _ => false) || go rest

/-! ## The normalizer (`parse_meshtastic_message`, bridge.py lines 220-284) -/

/-- The cleaned message dict built by the normalizer.  `from_id` and
`fromDisplay` are the source's `from_id` and `from` keys; optional fields
are `some` exactly when the source sets the corresponding key. -/
structure Msg where
  topic : String
  type : JVal
  msgId : Option JVal
  timestamp : Option JVal
  from_id : String
  fromDisplay : String
  channel : Option String
  payload : Option JVal
  text : Option JVal
  rssi : Option JVal
  snr : Option JVal

/-- bridge.py lines 235-244: numeric `from` (bools are ints in Python)
formats as `!%08x`; else a string `sender` is used verbatim; else the
message is rejected. -/
def originOf (fs : List (String × JVal)) : Option String :=
  match dictGet fs "from" with
  | some (JVal.num n) => some (pyHexBang n)
  | some (JVal.bool b) => some (pyHexBang (if b then 1 else 0))
  | some _ => none
  | none =>
    match dictGet fs "sender" with
    | some (JVal.str s) => some s
    | _ => none

/-- bridge.py lines 256-263: text extraction for `type = text`; `error`
is the "empty text message" rejection. -/
def textOf (mtype : JVal) (fs : List (String × JVal)) : Except Unit (Option JVal) :=
  if isStrEq mtype "text" then
    match dictGet fs "payload" with
    | some (JVal.obj pfs) =>
      match dictGet pfs "text" with
      | some tv => Except.ok (some tv)
      | none =>
        match dictGet fs "text" with
        | some tv => Except.ok (some tv)
        | none => Except.error ()
    | _ =>
      match dictGet fs "text" with
      | some tv => Except.ok (some tv)
      | none => Except.error ()
  else Except.ok none

/-- bridge.py lines 272-278: name extraction for the nodeinfo cache update;
`none` is the `AttributeError` raised when `payload` or `user` is not a
dict (the whole parse then fails). -/
def nodeinfoNames (fs : List (String × JVal)) :
    Option (Option String × Option String) :=
  match (dictGet fs "payload").getD (JVal.obj []) with
  | JVal.obj pfs =>
    match (dictGet pfs "user").getD (JVal.obj []) with
    | JVal.obj ufs =>
      some (nameOf (pyOr (dictGet ufs "shortName") (dictGet ufs "shortname")),
            nameOf (pyOr (dictGet ufs "longName") (dictGet ufs "longname")))
    | _ => none
  | _ => none

/-- bridge.py lines 220-284.  `raw = none` is a JSON parse failure.  The
returned cache reflects the nodeinfo name update performed (only) on the
success path of a nodeinfo message; every rejection happens before that
update. -/
def parse_meshtastic_message (topic : String) (raw : Option JVal)
    (cache : Cache) : Option Msg × Cache :=
  match raw with
  | none => (none, cache)
  | some data =>
    match data with
    | JVal.obj fs =>
      let mtype := (dictGet fs "type").getD (JVal.str "unknown")
      match originOf fs with
      | none => (none, cache)
      | some fid =>
        match textOf mtype fs with
        | Except.error _ => (none, cache)
        | Except.ok txt =>
          let m : Msg :=
            { topic := topic
              type := mtype
              msgId := dictGet fs "id"
              timestamp := dictGet fs "timestamp"
              from_id := fid
              fromDisplay := get_node_display_name cache fid
              channel := channelOf topic
              payload := dictGet fs "payload"
              text := txt
              rssi := dictGet fs "rssi"
              snr := dictGet fs "snr" }
          if isStrEq mtype "nodeinfo" then
            match nodeinfoNames fs with
            | none => (none, cache)
            | some (sN, lN) => (some m, update_node_name cache fid sN lN)
          else (some m, cache)
    | _ => (none, cache)

/-! ## Discord embeds and the two formatters -/

/-- The configuration surface the formatters consult. -/
structure Config where
  DISCORD_WEBHOOK_URL : String
  DISCORD_TELEMETRY_WEBHOOK_URL : String

/-- Values of embed fields.  String-building over floats is abstracted:
each constructor records exactly the inputs the source interpolates. -/
inductive FieldValue where
  | str (s : String)
  | jval (v : JVal)
  | signal (rssi snr : Option JVal)
  | location (lat_i lon_i : Int)
  | mapLink (lat_i lon_i : Int)
  | altitude (v : JVal)
  | battery (v : JVal) (aboveTwenty : Bool)
  | voltage (n : Int)
  | channelUtil (n : Int)
  | airUtilTx (n : Int)

/-- One `add_embed_field` call. -/
structure EmbedField where
  name : String
  value : FieldValue
  inline : Bool

/-- The two footers the source sets. -/
inductive Footer where
  | topicFooter (topic : String)
  | timeFooter (epoch : Int)

/-- A Discord embed as assembled by the source. -/
structure Embed where
  title : String
  color : String
  fields : List EmbedField
  footer : Option Footer

/-- bridge.py lines 67-71 and 121-125: the From field (always emitted,
since every parsed message has `from` and `from_id`). -/
def fromField (m : Msg) : EmbedField :=
  let display :=
    if m.from_id ≠ m.fromDisplay then m.fromDisplay ++ " (" ++ m.from_id ++ ")"
    else m.fromDisplay
  { name := "From", value := FieldValue.str display, inline := false }

/-- bridge.py lines 74-75. -/
def channelFields (m : Msg) : List EmbedField :=
  match m.channel with
  | some ch => [{ name := "Channel", value := FieldValue.str ("#" ++ ch), inline := false }]
  | none => []

/-- bridge.py lines 78-84 and 191-197: RSSI/SNR parts present iff the key
exists with a non-null value. -/
def signalFields (m : Msg) : List EmbedField :=
  let r := denull m.rssi
  let s := denull m.snr
  if r.isSome || s.isSome then
    [{ name := "Signal", value := FieldValue.signal r s, inline := false }]
  else []

/-- bridge.py lines 87-88. -/
def messageFields (m : Msg) : List EmbedField :=
  match m.text with
  | some tv => [{ name := "Message", value := FieldValue.jval tv, inline := false }]
  | none => []

/-- bridge.py lines 56-98: the main-webhook formatter.  `none` when the
main webhook is not configured; no other code path can fail before the
embed is complete, and an `execute` failure is caught and only logged. -/
def send_to_discord (cfg : Config) (m : Msg) : Option Embed :=
  if cfg.DISCORD_WEBHOOK_URL = "" then none
  else
    some { title := "📡 Mesh Message", color := "03b2f8",
           fields := [fromField m] ++ channelFields m ++ signalFields m ++ messageFields m,
           footer := some (Footer.topicFooter m.topic) }

/-- bridge.py lines 141-146: altitude and satellite-count fields. -/
def positionExtra (posfs : List (String × JVal)) : List EmbedField :=
  (match denull (dictGet posfs "altitude") with
   | some v => [{ name := "Altitude", value := FieldValue.altitude v, inline := true }]
   | none => []) ++
  (match denull (pyOr (dictGet posfs "sats_in_view") (dictGet posfs "satsInView")) with
   | some v => [{ name := "Satellites", value := FieldValue.jval v, inline := true }]
   | none => [])

/-- bridge.py lines 132-139: Location and map-link emission once `pos` is
a dict.  The boolean is false when the `/ 1e7` division raises on a
non-number. -/
def position_pos_fields (posfs : List (String × JVal)) : List EmbedField × Bool :=
  let lat := denull (pyOr (dictGet posfs "latitude_i") (dictGet posfs "latitudeI"))
  let lon := denull (pyOr (dictGet posfs "longitude_i") (dictGet posfs "longitudeI"))
  match lat, lon with
  | some lv, some wv =>
    if jneZero lv || jneZero wv then
      match asPyNum lv, asPyNum wv with
      | some a, some b =>
        ([{ name := "Location", value := FieldValue.location a b, inline := false },
          { name := "Map", value := FieldValue.mapLink a b, inline := false }] ++
         positionExtra posfs, true)
      | _, _ => ([], false)
    else (positionExtra posfs, true)
  | _, _ => (positionExtra posfs, true)

/-- bridge.py lines 130-146: the position branch.  The boolean is false
when the branch raises (non-dict `payload`/`pos`, or the `/ 1e7` division
applied to a non-number); fields accumulated before the raise are kept. -/
def position_fields (payload : JVal) : List EmbedField × Bool :=
  match payload with
  | JVal.obj pfs =>
    match (dictGet pfs "position").getD (JVal.obj pfs) with
    | JVal.obj posfs => position_pos_fields posfs
    | _ => ([], false)
  | _ => ([], false)

/-- bridge.py lines 152-155: the battery field, whose comparison
`battery > 20` raises on a non-number. -/
def batteryStep (mfs : List (String × JVal)) : List EmbedField × Bool :=
  match denull (dictGet mfs "battery_level") with
  | some bv =>
    match asPyNum bv with
    | some bn => ([{ name := "Battery", value := FieldValue.battery bv (decide (bn > 20)), inline := true }], true)
    | none => ([], false)
  | none => ([], true)

/-- One numeric metric field (bridge.py lines 157-164): formatting with
`:.Nf` raises on a non-number. -/
def metricStep (mfs : List (String × JVal)) (key fname : String)
    (mk : Int → FieldValue) : List EmbedField × Bool → List EmbedField × Bool
  | (acc, false) => (acc, false)
  | (acc, true) =>
    match denull (dictGet mfs key) with
    | some v =>
      match asPyNum v with
      | some n => (acc ++ [{ name := fname, value := mk n, inline := true }], true)
      | none => (acc, false)
    | none => (acc, true)

/-- bridge.py lines 149-164: the telemetry branch. -/
def telemetry_fields (payload : JVal) : List EmbedField × Bool :=
  match payload with
  | JVal.obj pfs =>
    match (dictGet pfs "device_metrics").getD payload with
    | JVal.obj mfs =>
      metricStep mfs "air_util_tx" "Air Util TX" FieldValue.airUtilTx
        (metricStep mfs "channel_utilization" "Channel Utilization" FieldValue.channelUtil
          (metricStep mfs "voltage" "Voltage" FieldValue.voltage
            (batteryStep mfs)))
    | _ => ([], false)
  | _ => ([], false)

/-- One recorded call of `update_node_name` (keyword arguments as in the
source). -/
structure UpdateCall where
  node_id : String
  short_name : Option String
  long_name : Option String

/-- bridge.py lines 167-188: the nodeinfo branch.  Returns the cache after
the formatter's own `update_node_name` calls, the calls themselves, the
fields, and whether the branch completed without raising. -/
def nodeinfo_user_fields (pfs ufs : List (String × JVal)) (from_id : String)
    (cache : Cache) : Cache × List UpdateCall × List EmbedField × Bool :=
  let long_name := pyOr (dictGet ufs "longName") (dictGet ufs "longname")
  let (cache1, upd1, f1) :=
    if jTruthyO long_name then
      (update_node_name cache from_id none (nameOf long_name),
       [{ node_id := from_id, short_name := none, long_name := nameOf long_name }],
       [{ name := "Long Name", value := FieldValue.jval (long_name.getD JVal.null), inline := false }])
    else (cache, [], [])
  let short_name := pyOr (dictGet ufs "shortName") (dictGet ufs "shortname")
  let (cache2, upd2, f2) :=
    if jTruthyO short_name then
      (update_node_name cache1 from_id (nameOf short_name) none,
       [{ node_id := from_id, short_name := nameOf short_name, long_name := none }],
       [{ name := "Short Name", value := FieldValue.jval (short_name.getD JVal.null), inline := true }])
    else (cache1, [], [])
  let hw := pyOr (pyOr (dictGet ufs "hwModel") (dictGet ufs "hardwareModel"))
                 (dictGet pfs "hardwareModel")
  let f3 :=
    match denull hw with
    | some v => [{ name := "Hardware", value := FieldValue.jval v, inline := true }]
    | none => []
  let fwv := pyOr (dictGet pfs "firmware_version") (dictGet pfs "firmwareVersion")
  let f4 :=
    if jTruthyO fwv then
      [{ name := "Firmware", value := FieldValue.jval (fwv.getD JVal.null), inline := true }]
    else []
  (cache2, upd1 ++ upd2, f1 ++ f2 ++ f3 ++ f4, true)

/-- bridge.py lines 167-188: the nodeinfo branch of the telemetry
formatter. -/
def nodeinfo_fields (payload : JVal) (from_id : String) (cache : Cache) :
    Cache × List UpdateCall × List EmbedField × Bool :=
  match payload with
  | JVal.obj pfs =>
    match (dictGet pfs "user").getD (JVal.obj pfs) with
    | JVal.obj ufs => nodeinfo_user_fields pfs ufs from_id cache
    | _ => (cache, [], [], false)
  | _ => (cache, [], [], false)

/-- Python `str.title()` (used only for unrecognized routed types). -/
def pyTitleAux : Bool → List Char → List Char
  | _, [] => []
  | prevAlpha, c :: rest =>
    let c2 := if c.isAlpha then (if prevAlpha then c.toLower else c.toUpper) else c
    c2 :: pyTitleAux c.isAlpha rest

/-- Python `s.title()`. -/
def pyTitle (s : String) : String :=
  String.mk (pyTitleAux false s.data)

/-- bridge.py lines 112-117: title/colour keyed by message type. -/
def titleColorOf (mt : String) : String × String :=
  if mt = "position" then ("📍 Position Update", "42f554")
  else if mt = "telemetry" then ("📊 Telemetry Update", "f5a742")
  else if mt = "nodeinfo" then ("ℹ️ Node Info Update", "4287f5")
  else ("📡 " ++ pyTitle mt, "808080")

/-- `datetime.fromtimestamp` raises outside the representable year range
(bounds for UTC). -/
def tsInRange (n : Int) : Bool :=
  decide (-62135596800 ≤ n ∧ n ≤ 253402300799)

/-- Result of the telemetry formatter: final cache, the
`update_node_name` calls it performed, the embed as far as it was
assembled (`none` when the endpoint is unconfigured and the embed is
never created), and whether `webhook.execute()` was reached. -/
structure TeleResult where
  cache : Cache
  updates : List UpdateCall
  embed : Option Embed
  delivered : Bool

/-- bridge.py lines 101-208: the telemetry-webhook formatter.  A raise
anywhere inside the `try` is caught and only logged, so the function
always returns; state mutated before the raise (name-cache updates)
persists, and `execute` is skipped. -/
def send_telemetry_to_discord (cfg : Config) (m : Msg) (cache : Cache) : TeleResult :=
  if cfg.DISCORD_TELEMETRY_WEBHOOK_URL = "" then ⟨cache, [], none, false⟩
  else
    match m.type with
    | JVal.str mt =>
      let tc := titleColorOf mt
      let baseFields := [fromField m]
      let payload := (m.payload).getD (JVal.obj [])
      let r :=
        if mt = "position" then
          let p := position_fields payload
          (cache, ([] : List UpdateCall), p.1, p.2)
        else if mt = "telemetry" then
          let p := telemetry_fields payload
          (cache, ([] : List UpdateCall), p.1, p.2)
        else if mt = "nodeinfo" then
          nodeinfo_fields payload m.from_id cache
        else (cache, [], [], true)
      match r with
      | (cache2, upds, bFields, ok) =>
        if ok then
          let allFields := baseFields ++ bFields ++ signalFields m
          let fb : Option Footer × Bool :=
            match m.timestamp with
            | none => (none, true)
            | some ts =>
              match asPyNum ts with
              | some n => if tsInRange n then (some (Footer.timeFooter n), true) else (none, false)
              | none => (none, false)
          ⟨cache2, upds,
           some { title := tc.1, color := tc.2, fields := allFields, footer := fb.1 }, fb.2⟩
        else
          ⟨cache2, upds,
           some { title := tc.1, color := tc.2, fields := baseFields ++ bFields, footer := none }, false⟩
    | _ => ⟨cache, [], none, false⟩

/-! ## Deduplication and the ingestion callback (`on_message`) -/

/-- `MAX_SEEN_MESSAGES` (bridge.py line 28). -/
def MAX_SEEN_MESSAGES : Nat := 1000

/-- Membership in `seen_messages` (Python `in`). -/
def seenContains (seen : List JVal) (i : JVal) : Bool :=
  seen.any (fun x => jScalarEq x i)

/-- bridge.py lines 296-303: the duplicate gate.  Returns `none` when the
id is unhashable (the membership test raises); otherwise whether the id
is fresh, and the updated `seen_messages`.  The source first adds the id
and then, if the bound is exceeded, `pop()`s an arbitrary element, chosen
here by `pick`. -/
def dedupAdmit (pick : List JVal → Nat) (i : JVal) (seen : List JVal) :
    Option (Bool × List JVal) :=
  if isHashable i then
    if seenContains seen i then some (false, seen)
    else
      let s1 := seen ++ [i]
      some (true, if s1.length > MAX_SEEN_MESSAGES then s1.eraseIdx (pick s1 % s1.length) else s1)
  else none

/-- A notification handed to one of the two webhooks. -/
inductive Delivery where
  | main (e : Embed)
  | telemetry (e : Embed)

/-- The process-wide mutable state: the name cache and `seen_messages`. -/
structure BState where
  cache : Cache
  seen : List JVal

/-- bridge.py lines 305-313: routing by `type` after the dedup gate. -/
def route (cfg : Config) (m : Msg) (s : BState) : BState × List Delivery :=
  if isStrEq m.type "text" then
    match send_to_discord cfg m with
    | some e => (s, [Delivery.main e])
    | none => (s, [])
  else if isStrEq m.type "position" || isStrEq m.type "telemetry" || isStrEq m.type "nodeinfo" then
    let r := send_telemetry_to_discord cfg m s.cache
    ({ s with cache := r.cache },
     if r.delivered then
       match r.embed with
       | some e => [Delivery.telemetry e]
       | none => []
     else [])
  else (s, [])

/-- bridge.py lines 287-313: one full callback run.  `raw = none` models
bytes that fail `json.loads`. -/
def on_message (pick : List JVal → Nat) (cfg : Config) (topic : String)
    (raw : Option JVal) (s : BState) : BState × List Delivery :=
  if containsJsonSeg topic then
    match parse_meshtastic_message topic raw s.cache with
    | (none, c) => ({ cache := c, seen := s.seen }, [])
    | (some m, c) =>
      match m.msgId with
      | some i =>
        match dedupAdmit pick i s.seen with
        | none => ({ cache := c, seen := s.seen }, [])
        | some (false, seen2) => ({ cache := c, seen := seen2 }, [])
        | some (true, seen2) => route cfg m { cache := c, seen := seen2 }
      | none => route cfg m { cache := c, seen := s.seen }
  else (s, [])

/-- Run the callback over a sequence of inbound messages, collecting every
notification handed to a webhook. -/
def processMessages (pick : List JVal → Nat) (cfg : Config) :
    List (String × Option JVal) → BState → BState × List Delivery
  | [], s => (s, [])
  | (t, d) :: rest, s =>
    let r1 := on_message pick cfg t d s
    let r2 := processMessages pick cfg rest r1.1
    (r2.1, r1.2 ++ r2.2)

/-! ## Specification-side definitions

These are written from the wording of the specification (not from the
source) and are compared against the embedded source functions. -/

/-- §4.1 of the spec: "returns, in priority order, the cached long name,
else the cached short name, else the identifier itself". -/
def specResolve (cache : Cache) (node_id : String) : String :=
  match cache node_id with
  | some r =>
    match r.long with
    | some l => l
    | none =>
      match r.short with
      | some s => s
      | none => node_id
  | none => node_id

/-- Cache states produced by the program: `update_node_name` never stores
an empty name, so no record holds one. -/
def cacheWF (c : Cache) : Prop :=
  ∀ i r, c i = some r → r.short ≠ some "" ∧ r.long ≠ some ""

/-- The condition under which the position branch actually emits a
Location field: each coordinate is extracted by trying the snake_case key
and falling back to the camelCase key whenever the former is absent or
falsy, both extractions must produce a non-`None` number, and the two
numbers must not both be zero. -/
def specLocationCondition (posfs : List (String × JVal)) : Bool :=
  match denull (pyOr (dictGet posfs "latitude_i") (dictGet posfs "latitudeI")),
        denull (pyOr (dictGet posfs "longitude_i") (dictGet posfs "longitudeI")) with
  | some lv, some wv =>
    match asPyNum lv, asPyNum wv with
    | some a, some b => !(a == 0 && b == 0)
    | _, _ => false
  | _, _ => false

/-- Whether an embed carries a field with the given name. -/
def hasFieldNamed (e : Embed) (nm : String) : Bool :=
  e.fields.any (fun f => f.name == nm)

/-- Numeric value of one lowercase hex digit. -/
def hexCharVal : Char → Nat
  | '0' => 0 | '1' => 1 | '2' => 2 | '3' => 3 | '4' => 4
  | '5' => 5 | '6' => 6 | '7' => 7 | '8' => 8 | '9' => 9
  | 'a' => 10 | 'b' => 11 | 'c' => 12 | 'd' => 13 | 'e' => 14 | 'f' => 15
  | _ => 0

/-- The sixteen lowercase hexadecimal digit characters. -/
def isLowerHexDigit : Char → Bool
  | '0' | '1' | '2' | '3' | '4' | '5' | '6' | '7' | '8' | '9'
  | 'a' | 'b' | 'c' | 'd' | 'e' | 'f' => true
  | _ => false

/-- The number denoted by a big-endian string of hex digits. -/
def hexVal (l : List Char) : Nat :=
  l.foldl (fun a c => 16 * a + hexCharVal c) 0

/-! ## Shared concrete inputs for witnesses and counterexamples -/

/-- A configuration with both webhooks set. -/
def cfgBoth : Config :=
  { DISCORD_WEBHOOK_URL := "http://main.example", DISCORD_TELEMETRY_WEBHOOK_URL := "http://tele.example" }

/-- A configuration with only the main webhook set. -/
def cfgMain : Config :=
  { DISCORD_WEBHOOK_URL := "http://main.example", DISCORD_TELEMETRY_WEBHOOK_URL := "" }

/-- A `seen_messages` state filled to the 1000-entry bound. -/
def seenFull : List JVal :=
  (List.range 1000).map (fun k => JVal.num (Int.ofNat k))

/-- A choice function for `set.pop()` that removes the most recently added
element — a legitimate instance of the arbitrary removal order. -/
def pickLast : List JVal → Nat :=
  fun l => l.length - 1

/-! ## Supporting lemmas -/

/-- The empty cache has no stored names at all. -/
theorem cacheWF_empty : cacheWF emptyCache := by
  intro i r h
  simp [emptyCache] at h

/-- `update_node_name` never stores an empty name, so well-formedness is
an invariant of every reachable cache state. -/
theorem cacheWF_update (c : Cache) (h : cacheWF c) (node_id : String)
    (s l : Option String) : cacheWF (update_node_name c node_id s l) := by
  intro i r hir
  unfold update_node_name at hir
  by_cases hi : i = node_id
  · simp only [hi, if_pos rfl] at hir
    cases hir
    rcases hc : c node_id with _ | r0
    · rcases hs : truthyS s <;> rcases hl : truthyS l <;>
        simp_all [truthyS] <;>
        (try cases s) <;> (try cases l) <;> simp_all
    · obtain ⟨h1, h2⟩ := h _ _ hc
      rcases hs : truthyS s <;> rcases hl : truthyS l <;>
        simp_all [truthyS] <;>
        (try cases s) <;> (try cases l) <;> simp_all
  · simp only [if_neg hi] at hir
    exact h _ _ hir

/-! ## Claims about the identity cache (C8, C9) -/

/-- C8: for every reachable cache state, `get_node_display_name` returns
the cached long name if one is stored, else the cached short name if one
is stored, else the identifier itself; it is a pure function of the cache
state (it is a Lean function of it), and on the empty cache (no prior
update) it returns the identifier itself. -/
theorem resolve_priority (c : Cache) (node_id : String) (h : cacheWF c) :
    get_node_display_name c node_id = specResolve c node_id ∧
    get_node_display_name emptyCache node_id = node_id := by
  refine ⟨?_, rfl⟩
  unfold get_node_display_name specResolve
  rcases hc : c node_id with _ | r
  · rfl
  · obtain ⟨hs, hl⟩ := h _ _ hc
    rcases hrl : r.long with _ | l
    · rcases hrs : r.short with _ | s
      · simp [truthyS, hrl, hrs]
      · have hne : s ≠ "" := fun e => hs (by rw [hrs, e])
        simp [truthyS, hrl, hrs, hne]
    · have hne : l ≠ "" := fun e => hl (by rw [hrl, e])
      simp [truthyS, hrl, hne]

/-- A cache holding one record, reached by a single update. -/
def cacheOneNode : Cache :=
  update_node_name emptyCache "!9e9d5748" (some "NODE") (some "Node Long")

/-- Witness for C8 at a concrete reachable cache. -/
theorem resolve_priority_witness :
    get_node_display_name cacheOneNode "!9e9d5748" = specResolve cacheOneNode "!9e9d5748" ∧
    get_node_display_name emptyCache "!9e9d5748" = "!9e9d5748" :=
  resolve_priority cacheOneNode "!9e9d5748"
    (cacheWF_update emptyCache cacheWF_empty "!9e9d5748" (some "NODE") (some "Node Long"))

/-- C9: `update_node_name` merges: for the updated id, each name is
replaced only by a truthy (non-empty, non-`None`) argument and otherwise
keeps its previous value (absent names staying absent); the record always
exists afterwards (`some ...`), and every other id is untouched. -/
theorem update_merge_characterization (c : Cache) (node_id : String)
    (s l : Option String) (j : String) :
    update_node_name c node_id s l j =
      if j = node_id then
        some { short := if truthyS s then s
                        else ((c node_id).getD { short := none, long := none }).short,
               long := if truthyS l then l
                       else ((c node_id).getD { short := none, long := none }).long }
      else c j := by
  unfold update_node_name
  by_cases hj : j = node_id
  · rcases hs : truthyS s <;> rcases hl : truthyS l <;> simp [hj, hs, hl]
  · simp [hj]

/-! ## C1: channel derivation from the topic -/

/-- C1: on the topic `meshtastic/json/2/text` the normalizer sets
`channel` to `"text"` — the 4th `/`-separated segment (index 3) — and not
to `"2"` as the specification's example states.  (The source's own
comment, `meshtastic/json/0/text → channel 0`, describes the intended
behaviour; `parts[3]` picks the segment after the channel index.) -/
theorem channel_is_fourth_topic_segment :
    ((parse_meshtastic_message "meshtastic/json/2/text"
        (some (JVal.obj [("from", JVal.num 1)])) emptyCache).1).map Msg.channel
        = some (some "text") ∧
    (some (some "text") : Option (Option String)) ≠ some (some "2") :=
  ⟨rfl, by decide⟩

/-! ## C2: the Location field of position events -/

/-- A position payload with `latitude_i = 0` and a non-zero
`longitude_i` (camelCase variants absent). -/
def posPayloadZeroLat : JVal :=
  JVal.obj [("latitude_i", JVal.num 0), ("longitude_i", JVal.num 50000000)]

/-- A normalized position event carrying `posPayloadZeroLat`. -/
def msgPosZeroLat : Msg :=
  { topic := "meshtastic/json/2/position", type := JVal.str "position", msgId := none,
    timestamp := none, from_id := "!00000001", fromDisplay := "!00000001",
    channel := some "position", payload := some posPayloadZeroLat,
    text := none, rssi := none, snr := none }

/-- Counterexample to C2 as stated: `latitude_i = 0` with a non-zero
`longitude_i` yields NO Location field (the `or`-chain treats the falsy
`0` as missing and the camelCase fallback is absent), although the
notification is otherwise built and delivered. -/
theorem position_zero_latitude_no_location :
    ((send_telemetry_to_discord cfgBoth msgPosZeroLat emptyCache).embed).map
        (fun e => hasFieldNamed e "Location") = some false ∧
    (send_telemetry_to_discord cfgBoth msgPosZeroLat emptyCache).delivered = true :=
  ⟨rfl, rfl⟩

/-- The altitude/satellite fields never carry the name "Location". -/
theorem positionExtra_any_location (posfs : List (String × JVal)) :
    (positionExtra posfs).any (fun f => f.name == "Location") = false := by
  unfold positionExtra
  rcases denull (dictGet posfs "altitude") with _ | v <;>
    rcases denull (pyOr (dictGet posfs "sats_in_view") (dictGet posfs "satsInView")) with _ | w <;>
    rfl

/-- Python `v != 0` holds for every non-numeric value. -/
theorem jneZero_of_none {v : JVal} (h : asPyNum v = none) : jneZero v = true := by
  simp [jneZero, h]

/-- Python `v != 0` on a numeric value compares the number. -/
theorem jneZero_of_some {v : JVal} {n : Int} (h : asPyNum v = some n) :
    jneZero v = (n != 0) := by
  simp [jneZero, h]

/-- The Location field is emitted by the position branch exactly under
`specLocationCondition`. -/
theorem position_pos_fields_location (posfs : List (String × JVal)) :
    ((position_pos_fields posfs).1.any (fun f => f.name == "Location"))
      = specLocationCondition posfs := by
  unfold position_pos_fields specLocationCondition
  rcases h1 : denull (pyOr (dictGet posfs "latitude_i") (dictGet posfs "latitudeI")) with _ | lv <;>
    rcases h2 : denull (pyOr (dictGet posfs "longitude_i") (dictGet posfs "longitudeI")) with _ | wv
  · exact positionExtra_any_location posfs
  · exact positionExtra_any_location posfs
  · exact positionExtra_any_location posfs
  · rcases ha : asPyNum lv with _ | a
    · simp only [jneZero_of_none ha, Bool.true_or, if_pos rfl, ha]
      exact rfl
    · rcases hb : asPyNum wv with _ | b
      · simp only [jneZero_of_none hb, Bool.or_true, if_pos rfl, ha, hb]
        exact rfl
      · simp only [jneZero_of_some ha, jneZero_of_some hb, ha, hb]
        by_cases hz : ((a != 0) || (b != 0)) = true
        · rw [if_pos hz]
          have hr : (!(a == 0 && b == 0)) = ((a != 0) || (b != 0)) := by
            simp [bne]
          rw [hr, hz]
          rfl
        · rw [if_neg hz]
          have hr : (!(a == 0 && b == 0)) = ((a != 0) || (b != 0)) := by
            simp [bne]
          rw [hr]
          simp only [Bool.not_eq_true] at hz
          rw [hz]
          exact positionExtra_any_location posfs

/-- The Signal field never carries the name "Location". -/
theorem signalFields_any_location (m : Msg) :
    (signalFields m).any (fun f => f.name == "Location") = false := by
  simp only [signalFields]
  split <;> rfl

/-- C2 (amended): for a position event whose resolved position record is
a dict, the telemetry formatter emits a Location field (and the map link
next to it) if and only if each coordinate — extracted by trying the
snake_case key and falling back to the camelCase key whenever the former
is absent or falsy (zero included) — is a non-`None` number, and the two
numbers are not both zero.  In particular `latitude_i = 0` with no
camelCase fallback behaves as a missing latitude and suppresses the
Location field even when `longitude_i` is non-zero. -/
theorem location_field_iff (cfg : Config) (m : Msg) (cache : Cache)
    (pfs posfs : List (String × JVal))
    (hurl : cfg.DISCORD_TELEMETRY_WEBHOOK_URL ≠ "")
    (htype : m.type = JVal.str "position")
    (hpay : m.payload = some (JVal.obj pfs))
    (hpos : (dictGet pfs "position").getD (JVal.obj pfs) = JVal.obj posfs) :
    ∃ e, (send_telemetry_to_discord cfg m cache).embed = some e ∧
      hasFieldNamed e "Location" = specLocationCondition posfs := by
  unfold send_telemetry_to_discord
  rw [if_neg hurl]
  simp only [htype, hpay, position_fields, Option.getD_some]
  rw [hpos]
  simp only [if_pos rfl]
  rcases hp : position_pos_fields posfs with ⟨flds, ok⟩
  have hloc := position_pos_fields_location posfs
  rw [hp] at hloc
  simp only at hloc
  rcases ok with _ | _
  · refine ⟨_, rfl, ?_⟩
    simp [hasFieldNamed, fromField, hloc]
  · refine ⟨_, rfl, ?_⟩
    simp [hasFieldNamed, fromField, signalFields_any_location, hloc]

/-- A position payload with both coordinates present and non-zero. -/
def posPayloadBoth : List (String × JVal) :=
  [("latitude_i", JVal.num 374208500), ("longitude_i", JVal.num (-1220842600))]

/-- A normalized position event carrying `posPayloadBoth`. -/
def msgPosBoth : Msg :=
  { topic := "meshtastic/json/2/position", type := JVal.str "position", msgId := none,
    timestamp := none, from_id := "!00000001", fromDisplay := "!00000001",
    channel := some "position", payload := some (JVal.obj posPayloadBoth),
    text := none, rssi := none, snr := none }

/-- Witness for C2 (amended) at a concrete position event. -/
theorem location_field_iff_witness :
    ∃ e, (send_telemetry_to_discord cfgBoth msgPosBoth emptyCache).embed = some e ∧
      hasFieldNamed e "Location" = specLocationCondition posPayloadBoth :=
  location_field_iff cfgBoth msgPosBoth emptyCache posPayloadBoth posPayloadBoth
    (by decide) rfl rfl rfl

/-! ## C3, C4: the bounded SeenIdSet -/

/-- Python `==` is reflexive on hashable scalars. -/
theorem jScalarEq_refl {v : JVal} (h : isHashable v = true) : jScalarEq v v = true := by
  cases v
  case null => rfl
  case bool b => cases b <;> rfl
  case num n => simp [jScalarEq, asPyNum]
  case str s => simp [jScalarEq]
  case arr xs => simp [isHashable] at h
  case obj fs => simp [isHashable] at h

/-- A freshly appended hashable id is a member of `seen_messages`. -/
theorem seenContains_append_self {seen : List JVal} {i : JVal}
    (h : isHashable i = true) : seenContains (seen ++ [i]) i = true := by
  simp [seenContains, List.any_append, jScalarEq_refl h]

/-- Counterexample to C3 as stated: admitting the fresh id 2000 into a
full (1000-entry) `seen_messages` admits the message, but the arbitrary
`pop()` — here the instance removing the most recently added element,
which `set.pop()` may legitimately pick — happens AFTER the insertion and
evicts the just-admitted id itself, so the admitted id is NOT a member
afterwards (the size bound still holds). -/
theorem dedup_evicts_new_id :
    (dedupAdmit pickLast (JVal.num 2000) seenFull).map
      (fun r => (r.1, seenContains r.2 (JVal.num 2000), r.2.length))
      = some (true, false, 1000) := rfl

/-- C3 (amended): admitting a fresh hashable id first inserts it and only
then, when the bound is exceeded, evicts one arbitrary entry — possibly
the just-inserted id itself.  Consequently the admitted id is guaranteed
to remain a member only when the set was below its 1000-entry bound, and
the bound itself always holds afterwards. -/
theorem dedup_admit_fresh (pick : List JVal → Nat) (i : JVal) (seen : List JVal)
    (hfresh : seenContains seen i = false) (hhash : isHashable i = true) :
    ∃ seen2, dedupAdmit pick i seen = some (true, seen2) ∧
      (seen.length < MAX_SEEN_MESSAGES → seenContains seen2 i = true) ∧
      (seen.length ≤ MAX_SEEN_MESSAGES → seen2.length ≤ MAX_SEEN_MESSAGES) := by
  simp only [dedupAdmit, hhash, hfresh]
  rw [if_pos trivial, if_neg Bool.false_ne_true]
  refine ⟨_, rfl, ?_, ?_⟩
  · intro hlt
    have hnb : ¬ ((seen ++ [i]).length > MAX_SEEN_MESSAGES) := by
      simp only [List.length_append, List.length_singleton]
      unfold MAX_SEEN_MESSAGES
      unfold MAX_SEEN_MESSAGES at hlt
      omega
    rw [if_neg hnb]
    exact seenContains_append_self hhash
  · intro hle
    by_cases hgt : (seen ++ [i]).length > MAX_SEEN_MESSAGES
    · rw [if_pos hgt]
      have hpos : 0 < (seen ++ [i]).length := by simp
      have hidx : pick (seen ++ [i]) % (seen ++ [i]).length < (seen ++ [i]).length :=
        Nat.mod_lt _ hpos
      rw [List.length_eraseIdx_of_lt hidx]
      simp only [List.length_append, List.length_singleton] at hgt ⊢
      omega
    · rw [if_neg hgt]
      simp only [List.length_append, List.length_singleton] at hgt ⊢
      omega

/-- Witness for C3 (amended): a fresh numeric id admitted into an empty
set. -/
theorem dedup_admit_fresh_witness :
    ∃ seen2, dedupAdmit pickLast (JVal.num 7) [] = some (true, seen2) ∧
      (([] : List JVal).length < MAX_SEEN_MESSAGES → seenContains seen2 (JVal.num 7) = true) ∧
      (([] : List JVal).length ≤ MAX_SEEN_MESSAGES → seen2.length ≤ MAX_SEEN_MESSAGES) :=
  dedup_admit_fresh pickLast (JVal.num 7) [] rfl rfl

/-- One `dedupAdmit` step preserves the 1000-entry bound. -/
theorem dedupAdmit_length (pick : List JVal → Nat) (i : JVal) (seen : List JVal)
    (h : seen.length ≤ MAX_SEEN_MESSAGES) (b : Bool) (seen2 : List JVal)
    (heq : dedupAdmit pick i seen = some (b, seen2)) :
    seen2.length ≤ MAX_SEEN_MESSAGES := by
  by_cases hh : isHashable i = true
  · simp only [dedupAdmit, hh, if_pos rfl] at heq
    by_cases hc : seenContains seen i = true
    · rw [if_pos hc] at heq
      cases heq
      exact h
    · rw [if_neg hc] at heq
      by_cases hgt : (seen ++ [i]).length > MAX_SEEN_MESSAGES
      · rw [if_pos hgt] at heq
        cases heq
        have hpos : 0 < (seen ++ [i]).length := by simp
        have hidx : pick (seen ++ [i]) % (seen ++ [i]).length < (seen ++ [i]).length :=
          Nat.mod_lt _ hpos
        rw [List.length_eraseIdx_of_lt hidx]
        simp only [List.length_append, List.length_singleton] at hgt ⊢
        omega
      · rw [if_neg hgt] at heq
        cases heq
        simp only [List.length_append, List.length_singleton] at hgt ⊢
        omega
  · simp only [dedupAdmit, hh] at heq
    exact absurd heq (by simp)

/-- Routing and formatting never touch `seen_messages`. -/
theorem route_seen (cfg : Config) (m : Msg) (s : BState) :
    ((route cfg m s).1).seen = s.seen := by
  unfold route
  split
  · split <;> rfl
  · split <;> rfl

/-- One callback run preserves the 1000-entry bound on `seen_messages`. -/
theorem on_message_seen_bound (pick : List JVal → Nat) (cfg : Config)
    (t : String) (raw : Option JVal) (s : BState)
    (h : s.seen.length ≤ MAX_SEEN_MESSAGES) :
    ((on_message pick cfg t raw s).1).seen.length ≤ MAX_SEEN_MESSAGES := by
  unfold on_message
  split
  · split
    · exact h
    · split
      · split
        · exact h
        · next heq => exact dedupAdmit_length _ _ _ h _ _ heq
        · next heq =>
          rw [route_seen]
          exact dedupAdmit_length _ _ _ h _ _ heq
      · rw [route_seen]
        exact h
  · exact h

/-- C4: after fully processing every message of any inbound sequence —
whatever the eviction choices, configuration and starting state within
the bound — `seen_messages` holds at most `MAX_SEEN_MESSAGES` (1000) ids;
in particular feeding more than 1000 distinct ids never leaves more than
1000 retained. -/
theorem seen_bound_invariant (pick : List JVal → Nat) (cfg : Config)
    (msgs : List (String × Option JVal)) :
    ∀ s : BState, s.seen.length ≤ MAX_SEEN_MESSAGES →
      ((processMessages pick cfg msgs s).1).seen.length ≤ MAX_SEEN_MESSAGES := by
  induction msgs with
  | nil => intro s h; exact h
  | cons md rest ih =>
    intro s h
    rcases md with ⟨t, d⟩
    simp only [processMessages]
    exact ih _ (on_message_seen_bound pick cfg t d s h)

/-- A raw text message with id 2000 as delivered by the broker. -/
def rawText2000 : Option JVal :=
  some (JVal.obj [("type", JVal.str "text"), ("from", JVal.num 1),
                  ("text", JVal.str "hi"), ("id", JVal.num 2000)])

/-- Witness for C4: a text message processed on a full `seen_messages`. -/
theorem seen_bound_invariant_witness :
    ((processMessages pickLast cfgMain [("m/json/c", rawText2000)]
        { cache := emptyCache, seen := seenFull }).1).seen.length ≤ MAX_SEEN_MESSAGES :=
  seen_bound_invariant pickLast cfgMain [("m/json/c", rawText2000)]
    { cache := emptyCache, seen := seenFull } (by decide)

/-! ## C7: the `!%08x` formatting of numeric `from` fields -/

/-- Decoding inverts one digit. -/
theorem hexCharVal_digitChar {m : Nat} (h : m < 16) :
    hexCharVal (Nat.digitChar m) = m := by
  interval_cases m <;> rfl

/-- `Nat.digitChar` produces lowercase hex digits below base 16. -/
theorem isLowerHexDigit_digitChar {m : Nat} (h : m < 16) :
    isLowerHexDigit (Nat.digitChar m) = true := by
  interval_cases m <;> rfl

/-- The accumulator of the hex-digit loop is a suffix. -/
theorem toHexAux_append (fuel : Nat) :
    ∀ (n : Nat) (acc : List Char), toHexAux fuel n acc = toHexAux fuel n [] ++ acc := by
  induction fuel with
  | zero => intro n acc; rfl
  | succ f ih =>
    intro n acc
    simp only [toHexAux]
    by_cases h : n / 16 = 0
    · rw [if_pos h, if_pos h]
      rfl
    · rw [if_neg h, if_neg h, ih (n / 16) (Nat.digitChar (n % 16) :: acc),
          ih (n / 16) [Nat.digitChar (n % 16)]]
      simp

/-- Decoding one appended digit. -/
theorem hexVal_append_digit (xs : List Char) (c : Char) :
    hexVal (xs ++ [c]) = 16 * hexVal xs + hexCharVal c := by
  unfold hexVal
  rw [List.foldl_append]
  rfl

/-- The hex-digit loop is inverted by `hexVal` whenever the fuel bounds
the value. -/
theorem hexVal_toHexAux (fuel : Nat) :
    ∀ n, n < 16 ^ fuel → hexVal (toHexAux fuel n []) = n := by
  induction fuel with
  | zero =>
    intro n h
    interval_cases n
    rfl
  | succ f ih =>
    intro n h
    simp only [toHexAux]
    by_cases h0 : n / 16 = 0
    · rw [if_pos h0]
      have hn : n < 16 := by omega
      show hexVal [Nat.digitChar (n % 16)] = n
      have hval : hexVal [Nat.digitChar (n % 16)] = hexCharVal (Nat.digitChar (n % 16)) := by
        unfold hexVal
        simp
      rw [hval, hexCharVal_digitChar (by omega)]
      omega
    · rw [if_neg h0, toHexAux_append, hexVal_append_digit]
      have hdiv : n / 16 < 16 ^ f := by
        have hlt : n < 16 ^ f * 16 := by
          rw [← pow_succ]
          exact h
        exact (Nat.div_lt_iff_lt_mul (by norm_num)).2 hlt
      rw [ih (n / 16) hdiv, hexCharVal_digitChar (by omega)]
      omega

/-- At most `k` digits are produced for values below `16 ^ k`. -/
theorem toHexAux_length (fuel : Nat) :
    ∀ n k, 1 ≤ k → n < 16 ^ k → (toHexAux fuel n []).length ≤ k := by
  induction fuel with
  | zero =>
    intro n k h1 h2
    simp [toHexAux]
  | succ f ih =>
    intro n k h1 h2
    simp only [toHexAux]
    by_cases h0 : n / 16 = 0
    · rw [if_pos h0]
      simpa using h1
    · rw [if_neg h0, toHexAux_append, List.length_append]
      have hk2 : 2 ≤ k := by
        by_contra hc
        have hk1 : k = 1 := by omega
        subst hk1
        simp at h2
        omega
      have hdiv : n / 16 < 16 ^ (k - 1) := by
        have hpow : (16:Nat) ^ (k - 1) * 16 = 16 ^ k := by
          rw [← pow_succ]
          congr 1
          omega
        have hlt : n < 16 ^ (k - 1) * 16 := by omega
        exact (Nat.div_lt_iff_lt_mul (by norm_num)).2 hlt
      have := ih (n / 16) (k - 1) (by omega) hdiv
      simp only [List.length_singleton]
      omega

/-- Every produced character is a lowercase hex digit. -/
theorem toHexAux_chars (fuel : Nat) :
    ∀ n acc, (∀ c ∈ acc, isLowerHexDigit c = true) →
      ∀ c ∈ toHexAux fuel n acc, isLowerHexDigit c = true := by
  induction fuel with
  | zero => intro n acc h; exact h
  | succ f ih =>
    intro n acc hacc c hc
    simp only [toHexAux] at hc
    by_cases h0 : n / 16 = 0
    · rw [if_pos h0] at hc
      rcases List.mem_cons.1 hc with h | h
      · subst h
        exact isLowerHexDigit_digitChar (Nat.mod_lt _ (by norm_num))
      · exact hacc _ h
    · rw [if_neg h0] at hc
      refine ih (n / 16) _ ?_ c hc
      intro d hd
      rcases List.mem_cons.1 hd with h | h
      · subst h
        exact isLowerHexDigit_digitChar (Nat.mod_lt _ (by norm_num))
      · exact hacc _ h

/-- Leading zeroes do not change the decoded value. -/
theorem hexVal_replicate_zero (j : Nat) (ds : List Char) :
    hexVal (List.replicate j '0' ++ ds) = hexVal ds := by
  induction j with
  | zero => rfl
  | succ k ih =>
    rw [List.replicate_succ, List.cons_append]
    exact ih

/-- Padding to width 8 succeeds when at most 8 digits are present. -/
theorem zfill_length {ds : List Char} (h : ds.length ≤ 8) :
    (zfill 8 ds).length = 8 := by
  simp [zfill]
  omega

/-- Whatever else the normalizer does, a message with a numeric `from`
that parses successfully carries `from_id = pyHexBang n`. -/
theorem parse_from_id (t : String) (fs : List (String × JVal)) (c : Cache)
    (k : Int) (m : Msg) (c2 : Cache)
    (hfrom : dictGet fs "from" = some (JVal.num k))
    (hp : parse_meshtastic_message t (some (JVal.obj fs)) c = (some m, c2)) :
    m.from_id = pyHexBang k := by
  simp only [parse_meshtastic_message, originOf, hfrom] at hp
  rcases htx : textOf ((dictGet fs "type").getD (JVal.str "unknown")) fs with _ | txt
  · rw [htx] at hp
    exact absurd hp (by simp)
  · rw [htx] at hp
    dsimp only at hp
    by_cases hni : isStrEq ((dictGet fs "type").getD (JVal.str "unknown")) "nodeinfo" = true
    · rw [if_pos hni] at hp
      rcases hnn : nodeinfoNames fs with _ | ⟨sN, lN⟩
      · rw [hnn] at hp
        exact absurd hp (by simp)
      · rw [hnn] at hp
        injection hp with h1 h2
        injection h1 with h3
        rw [← h3]
    · rw [if_neg hni] at hp
      injection hp with h1 h2
      injection h1 with h3
      rw [← h3]

/-- C7: for every payload whose `from` field is an integer in
`[0, 2^32)`, successful normalization produces a `from_id` equal to `!`
followed by exactly eight lowercase hexadecimal digits that decode back
to that integer — i.e. the zero-padded 8-digit lowercase hex
representation, which these properties determine uniquely. -/
theorem from_id_hex_format (t : String) (fs : List (String × JVal)) (c c2 : Cache)
    (n : Nat) (m : Msg)
    (hn : n < 2 ^ 32)
    (hfrom : dictGet fs "from" = some (JVal.num (Int.ofNat n)))
    (hp : parse_meshtastic_message t (some (JVal.obj fs)) c = (some m, c2)) :
    ∃ h : List Char, m.from_id = String.mk ('!' :: h) ∧ h.length = 8 ∧
      (∀ ch ∈ h, isLowerHexDigit ch = true) ∧ hexVal h = n := by
  have hfid := parse_from_id t fs c _ m c2 hfrom hp
  have hlen : (hexDigits n).length ≤ 8 := by
    unfold hexDigits
    refine toHexAux_length (n + 1) n 8 (by norm_num) ?_
    calc n < 2 ^ 32 := hn
      _ ≤ 16 ^ 8 := by norm_num
  refine ⟨zfill 8 (hexDigits n), ?_, zfill_length hlen, ?_, ?_⟩
  · rw [hfid]
    unfold pyHexBang pyFormat08x
    rw [if_neg (by exact not_lt.2 (Int.ofNat_nonneg n))]
    rfl
  · intro ch hch
    unfold zfill at hch
    rcases List.mem_append.1 hch with h | h
    · have : ch = '0' := List.eq_of_mem_replicate h
      subst this
      rfl
    · exact toHexAux_chars (n + 1) n [] (by intro d hd; cases hd) ch h
  · unfold zfill
    rw [hexVal_replicate_zero]
    have h1 : n < 16 ^ n.succ := by
      calc n < 16 ^ n := Nat.lt_pow_self (by norm_num) n
        _ ≤ 16 ^ n.succ := Nat.pow_le_pow_right (by norm_num) (Nat.le_succ n)
    exact hexVal_toHexAux (n + 1) n h1


/-- A raw text payload with `from = 0x12345678`. -/
def rawFromFields : List (String × JVal) :=
  [("from", JVal.num 305419896), ("type", JVal.str "text"), ("text", JVal.str "hi")]

/-- The normalizer's output on `rawFromFields`. -/
def msgTextFrom : Msg :=
  { topic := "m/json/c", type := JVal.str "text", msgId := none, timestamp := none,
    from_id := "!12345678", fromDisplay := "!12345678", channel := none,
    payload := none, text := some (JVal.str "hi"), rssi := none, snr := none }

/-- Witness for C7 at `from = 0x12345678`. -/
theorem from_id_hex_format_witness :
    ∃ h : List Char, msgTextFrom.from_id = String.mk ('!' :: h) ∧ h.length = 8 ∧
      (∀ ch ∈ h, isLowerHexDigit ch = true) ∧ hexVal h = 305419896 :=
  from_id_hex_format "m/json/c" rawFromFields emptyCache emptyCache 305419896 msgTextFrom
    (by norm_num) rfl rfl

/-! ## C10: the nodeinfo formatter is not side-effect-free -/

/-- The nodeinfo branch with truthy string names: two `update_node_name`
calls (long first, then short), applied to the cache. -/
theorem nodeinfo_user_fields_updates (pfs ufs : List (String × JVal))
    (from_id : String) (cache : Cache) (L S : String)
    (hlong : pyOr (dictGet ufs "longName") (dictGet ufs "longname") = some (JVal.str L))
    (hL : L ≠ "")
    (hshort : pyOr (dictGet ufs "shortName") (dictGet ufs "shortname") = some (JVal.str S))
    (hS : S ≠ "") :
    (nodeinfo_user_fields pfs ufs from_id cache).1 =
      update_node_name (update_node_name cache from_id none (some L)) from_id (some S) none ∧
    (nodeinfo_user_fields pfs ufs from_id cache).2.1 =
      [{ node_id := from_id, short_name := none, long_name := some L },
       { node_id := from_id, short_name := some S, long_name := none }] ∧
    (nodeinfo_user_fields pfs ufs from_id cache).2.2.2 = true := by
  have hLt : jTruthyO (some (JVal.str L)) = true := by simp [jTruthyO, jTruthy, hL]
  have hSt : jTruthyO (some (JVal.str S)) = true := by simp [jTruthyO, jTruthy, hS]
  refine ⟨?_, ?_, ?_⟩ <;>
    simp [nodeinfo_user_fields, hlong, hshort, hLt, hSt, nameOf]

/-- C10: with the telemetry endpoint configured, formatting a nodeinfo
event whose user block carries (non-empty, string) long and short names
calls the cache update again for the event's `from_id` — beyond the
update already performed during normalization — re-applying the same
names: one call with the long name, one with the short name, and the
returned cache is the input cache with both updates applied. -/
theorem nodeinfo_formatter_updates_cache (cfg : Config) (m : Msg) (cache : Cache)
    (pfs ufs : List (String × JVal)) (L S : String)
    (hurl : cfg.DISCORD_TELEMETRY_WEBHOOK_URL ≠ "")
    (htype : m.type = JVal.str "nodeinfo")
    (hpay : m.payload = some (JVal.obj pfs))
    (huser : (dictGet pfs "user").getD (JVal.obj pfs) = JVal.obj ufs)
    (hlong : pyOr (dictGet ufs "longName") (dictGet ufs "longname") = some (JVal.str L))
    (hL : L ≠ "")
    (hshort : pyOr (dictGet ufs "shortName") (dictGet ufs "shortname") = some (JVal.str S))
    (hS : S ≠ "") :
    (send_telemetry_to_discord cfg m cache).updates =
      [{ node_id := m.from_id, short_name := none, long_name := some L },
       { node_id := m.from_id, short_name := some S, long_name := none }] ∧
    (send_telemetry_to_discord cfg m cache).cache =
      update_node_name (update_node_name cache m.from_id none (some L))
        m.from_id (some S) none := by
  obtain ⟨hc, hu, hok⟩ :=
    nodeinfo_user_fields_updates pfs ufs m.from_id cache L S hlong hL hshort hS
  unfold send_telemetry_to_discord
  rw [if_neg hurl]
  simp only [htype, hpay, nodeinfo_fields, Option.getD_some]
  rw [huser]
  rw [if_pos trivial]
  dsimp only
  rcases hnf : nodeinfo_user_fields pfs ufs m.from_id cache with ⟨c2, u2, f2, ok2⟩
  rw [hnf] at hc hu hok
  simp only at hc hu hok
  subst hok
  subst hu
  subst hc
  simp


/-- A user block carrying both names. -/
def userBlock : List (String × JVal) :=
  [("shortName", JVal.str "SN"), ("longName", JVal.str "Long Node")]

/-- A nodeinfo payload carrying `userBlock`. -/
def nodeinfoPayload : List (String × JVal) :=
  [("user", JVal.obj userBlock)]

/-- A normalized nodeinfo event carrying `nodeinfoPayload`. -/
def msgNodeinfo : Msg :=
  { topic := "m/json/c", type := JVal.str "nodeinfo", msgId := none, timestamp := none,
    from_id := "!00000001", fromDisplay := "!00000001", channel := none,
    payload := some (JVal.obj nodeinfoPayload), text := none, rssi := none, snr := none }

/-- Witness for C10 at a concrete nodeinfo event. -/
theorem nodeinfo_formatter_updates_cache_witness :
    (send_telemetry_to_discord cfgBoth msgNodeinfo emptyCache).updates =
      [{ node_id := msgNodeinfo.from_id, short_name := none, long_name := some "Long Node" },
       { node_id := msgNodeinfo.from_id, short_name := some "SN", long_name := none }] ∧
    (send_telemetry_to_discord cfgBoth msgNodeinfo emptyCache).cache =
      update_node_name (update_node_name emptyCache msgNodeinfo.from_id none (some "Long Node"))
        msgNodeinfo.from_id (some "SN") none :=
  nodeinfo_formatter_updates_cache cfgBoth msgNodeinfo emptyCache nodeinfoPayload userBlock
    "Long Node" "SN" (by decide) rfl rfl rfl rfl (by decide) rfl (by decide)

/-! ## C5: the nodeinfo cache update precedes the dedup gate -/

/-- Membership in `seen_messages` can only hold for hashable ids. -/
theorem seenContains_hashable {seen : List JVal} {i : JVal}
    (h : seenContains seen i = true) : isHashable i = true := by
  cases i
  case null => rfl
  case bool b => rfl
  case num n => rfl
  case str s => rfl
  case arr xs =>
    exfalso
    simp [seenContains] at h
    obtain ⟨x, hx, hje⟩ := h
    cases x <;> simp [jScalarEq, asPyNum] at hje
  case obj fs =>
    exfalso
    simp [seenContains] at h
    obtain ⟨x, hx, hje⟩ := h
    cases x <;> simp [jScalarEq, asPyNum] at hje

/-- Updating with two non-empty names stores both, whatever was there. -/
theorem update_node_name_both (c : Cache) (node_id : String) (S L : String)
    (hS : S ≠ "") (hL : L ≠ "") :
    update_node_name c node_id (some S) (some L) node_id =
      some { short := some S, long := some L } := by
  simp [update_node_name, truthyS, hS, hL]

/-- C5: a nodeinfo message with (non-empty, string) names under
`payload.user` updates the Node Identity Cache for its `fromId` even when
its id is already in the SeenIdSet: the update runs during normalization,
before the dedup gate, so after the callback the cache holds both names
while the event itself is dropped as a duplicate (no delivery). -/
theorem nodeinfo_updates_cache_before_dedup
    (pick : List JVal → Nat) (cfg : Config) (t : String) (s : BState)
    (fs pfs ufs : List (String × JVal)) (k : Int) (i : JVal) (L S : String)
    (hjson : containsJsonSeg t = true)
    (htype : dictGet fs "type" = some (JVal.str "nodeinfo"))
    (hfrom : dictGet fs "from" = some (JVal.num k))
    (hpay : dictGet fs "payload" = some (JVal.obj pfs))
    (huser : dictGet pfs "user" = some (JVal.obj ufs))
    (hlong : pyOr (dictGet ufs "longName") (dictGet ufs "longname") = some (JVal.str L))
    (hL : L ≠ "")
    (hshort : pyOr (dictGet ufs "shortName") (dictGet ufs "shortname") = some (JVal.str S))
    (hS : S ≠ "")
    (hid : dictGet fs "id" = some i)
    (hseen : seenContains s.seen i = true) :
    ((on_message pick cfg t (some (JVal.obj fs)) s).1).cache (pyHexBang k)
        = some { short := some S, long := some L } ∧
    (on_message pick cfg t (some (JVal.obj fs)) s).2 = [] := by
  have hhash : isHashable i = true := seenContains_hashable hseen
  have hd : dedupAdmit pick i s.seen = some (false, s.seen) := by
    simp [dedupAdmit, hhash, hseen]
  have hnames : nodeinfoNames fs = some (some S, some L) := by
    simp only [nodeinfoNames, hpay, Option.getD_some, huser, hshort, hlong, nameOf]
  have htx : textOf (JVal.str "nodeinfo") fs = Except.ok none := rfl
  unfold on_message
  rw [if_pos hjson]
  simp only [parse_meshtastic_message, originOf, hfrom, htype, Option.getD_some, htx, hnames]
  rw [if_pos (by rfl : isStrEq (JVal.str "nodeinfo") "nodeinfo" = true)]
  dsimp only
  rw [hid]
  dsimp only
  rw [hd]
  dsimp only
  exact ⟨update_node_name_both s.cache (pyHexBang k) S L hS hL, rfl⟩

/-! ## C6: duplicate suppression and the delivery transport -/

/-- Normalization leaves the name cache untouched except for nodeinfo
messages. -/
theorem parse_cache_unchanged (t : String) (raw : Option JVal) (c : Cache)
    (m : Msg) (c2 : Cache)
    (hp : parse_meshtastic_message t raw c = (some m, c2))
    (hni : isStrEq m.type "nodeinfo" = false) : c2 = c := by
  unfold parse_meshtastic_message at hp
  rcases raw with _ | data
  · simp at hp
  · rcases data with _ | b | n | sv | xs | fs
    case obj =>
      dsimp only at hp
      rcases ho : originOf fs with _ | fid
      · rw [ho] at hp
        simp at hp
      · rw [ho] at hp
        dsimp only at hp
        rcases htx : textOf ((dictGet fs "type").getD (JVal.str "unknown")) fs with _ | txt
        · rw [htx] at hp
          simp at hp
        · rw [htx] at hp
          dsimp only at hp
          by_cases hni2 : isStrEq ((dictGet fs "type").getD (JVal.str "unknown")) "nodeinfo" = true
          · rw [if_pos hni2] at hp
            rcases hnn : nodeinfoNames fs with _ | p
            · rw [hnn] at hp
              simp at hp
            · rw [hnn] at hp
              rcases p with ⟨sN, lN⟩
              dsimp only at hp
              injection hp with h1 h2
              injection h1 with h3
              rw [← h3] at hni
              dsimp only at hni
              rw [hni2] at hni
              exact absurd hni (by simp)
          · rw [if_neg hni2] at hp
            injection hp with h1 h2
            exact h2.symm
    all_goals simp at hp

/-- C6 (amended): two successfully normalized text events sharing a
fresh, non-null (hashable) id produce exactly one call to the delivery
transport — the first is delivered, the second dropped as a duplicate —
PROVIDED the SeenIdSet holds fewer than its 1000-entry bound when the
first is admitted.  (At the bound, the arbitrary eviction may remove the
just-admitted id and the duplicate is then delivered as well; see the
counterexample.)  Delivery success or failure cannot influence the
outcome: the source catches `execute` exceptions and only logs them, so
the embedding carries no delivery outcome at all. -/
theorem text_duplicate_single_delivery
    (pick : List JVal → Nat) (cfg : Config) (s : BState)
    (t1 t2 : String) (d1 d2 : Option JVal) (m1 m2 : Msg) (i : JVal) (c1 c2 : Cache)
    (hurl : cfg.DISCORD_WEBHOOK_URL ≠ "")
    (hjson1 : containsJsonSeg t1 = true) (hjson2 : containsJsonSeg t2 = true)
    (hp1 : parse_meshtastic_message t1 d1 s.cache = (some m1, c1))
    (hp2 : parse_meshtastic_message t2 d2 s.cache = (some m2, c2))
    (htype1 : m1.type = JVal.str "text") (htype2 : m2.type = JVal.str "text")
    (hid1 : m1.msgId = some i) (hid2 : m2.msgId = some i)
    (hnn : i ≠ JVal.null)
    (hhash : isHashable i = true)
    (hfresh : seenContains s.seen i = false)
    (hcap : s.seen.length < MAX_SEEN_MESSAGES) :
    ((processMessages pick cfg [(t1, d1), (t2, d2)] s).2).length = 1 := by
  have hc1 : c1 = s.cache :=
    parse_cache_unchanged t1 d1 s.cache m1 c1 hp1 (by rw [htype1]; rfl)
  have hc2 : c2 = s.cache :=
    parse_cache_unchanged t2 d2 s.cache m2 c2 hp2 (by rw [htype2]; rfl)
  subst hc1
  subst hc2
  have h1 : ∃ e, on_message pick cfg t1 d1 s
      = ({ cache := s.cache, seen := s.seen ++ [i] }, [Delivery.main e]) := by
    have hd : dedupAdmit pick i s.seen = some (true, s.seen ++ [i]) := by
      have hnb : ¬ ((s.seen ++ [i]).length > MAX_SEEN_MESSAGES) := by
        simp only [List.length_append, List.length_singleton]
        unfold MAX_SEEN_MESSAGES at hcap ⊢
        omega
      simp only [dedupAdmit, hhash, hfresh]
      rw [if_pos trivial, if_neg Bool.false_ne_true, if_neg hnb]
    unfold on_message
    rw [if_pos hjson1, hp1]
    dsimp only
    rw [hid1]
    dsimp only
    rw [hd]
    dsimp only
    unfold route
    rw [htype1]
    rw [if_pos (by rfl : isStrEq (JVal.str "text") "text" = true)]
    unfold send_to_discord
    rw [if_neg hurl]
    exact ⟨_, rfl⟩
  have h2 : (on_message pick cfg t2 d2
      ({ cache := s.cache, seen := s.seen ++ [i] } : BState)).2 = [] := by
    have hd2 : dedupAdmit pick i (s.seen ++ [i]) = some (false, s.seen ++ [i]) := by
      simp [dedupAdmit, hhash, seenContains_append_self hhash]
    unfold on_message
    rw [if_pos hjson2]
    dsimp only
    rw [hp2]
    dsimp only
    rw [hid2]
    dsimp only
    rw [hd2]
  obtain ⟨e1, h1⟩ := h1
  simp [processMessages, h1, h2]

/-- Counterexample to C6 as stated: with `seen_messages` at its 1000-entry
bound and an eviction order that removes the most recently added element,
the same text message (id 2000) is delivered TWICE — the first admission
evicts id 2000 itself, so the second copy is not recognized as a
duplicate. -/
theorem duplicate_text_delivered_twice :
    ((processMessages pickLast cfgMain
        [("m/json/c", rawText2000), ("m/json/c", rawText2000)]
        { cache := emptyCache, seen := seenFull }).2).length = 2 ∧
    ((processMessages pickLast cfgMain
        [("m/json/c", rawText2000), ("m/json/c", rawText2000)]
        { cache := emptyCache, seen := seenFull }).2).length ≠ 1 :=
  ⟨rfl, by decide⟩


/-- A duplicate nodeinfo message: id 5, names under `payload.user`. -/
def fsNodeinfoDup : List (String × JVal) :=
  [("type", JVal.str "nodeinfo"), ("from", JVal.num 1), ("id", JVal.num 5),
   ("payload", JVal.obj nodeinfoPayload)]

/-- Witness for C5: the nodeinfo message with already-seen id 5 still
updates the cache for `!00000001`, and nothing is delivered. -/
theorem nodeinfo_updates_cache_before_dedup_witness :
    ((on_message pickLast cfgMain "m/json/c" (some (JVal.obj fsNodeinfoDup))
        { cache := emptyCache, seen := [JVal.num 5] }).1).cache (pyHexBang 1)
        = some { short := some "SN", long := some "Long Node" } ∧
    (on_message pickLast cfgMain "m/json/c" (some (JVal.obj fsNodeinfoDup))
        { cache := emptyCache, seen := [JVal.num 5] }).2 = [] :=
  nodeinfo_updates_cache_before_dedup pickLast cfgMain "m/json/c"
    { cache := emptyCache, seen := [JVal.num 5] } fsNodeinfoDup nodeinfoPayload userBlock
    1 (JVal.num 5) "Long Node" "SN" rfl rfl rfl rfl rfl rfl (by decide) rfl (by decide)
    rfl rfl

/-- The normalizer's output on `rawText2000`. -/
def msgText2000 : Msg :=
  { topic := "m/json/c", type := JVal.str "text", msgId := some (JVal.num 2000),
    timestamp := none, from_id := "!00000001", fromDisplay := "!00000001",
    channel := none, payload := none, text := some (JVal.str "hi"),
    rssi := none, snr := none }

/-- Witness for C6 (amended): the same text message twice, from an empty
SeenIdSet — exactly one delivery. -/
theorem text_duplicate_single_delivery_witness :
    ((processMessages pickLast cfgMain
        [("m/json/c", rawText2000), ("m/json/c", rawText2000)]
        { cache := emptyCache, seen := [] }).2).length = 1 :=
  text_duplicate_single_delivery pickLast cfgMain { cache := emptyCache, seen := [] }
    "m/json/c" "m/json/c" rawText2000 rawText2000 msgText2000 msgText2000
    (JVal.num 2000) emptyCache emptyCache (by decide) rfl rfl rfl rfl rfl rfl rfl rfl
    (by intro h; exact JVal.noConfusion h) rfl rfl (by decide)
